import Mathlib

/-!
Verification development for the Retraction Radar repository.

The JavaScript / Apps Script sources are shallowly embedded:

* JS strings are modelled as lists of UTF-16 code units (`List Nat`) where
  character-level reasoning is needed (DOI normalization), and as Lean
  `String`s elsewhere; case mapping is the ASCII mapping used by the
  sources' inputs.
* Network calls (`UrlFetchApp.fetch`, `fetch`) are modelled as oracle
  functions supplied as parameters: an oracle maps the attempt number
  (and, for the reference-batch endpoint, the batch ordinal) to either a
  thrown error or an HTTP response; response payloads are modelled
  semantically (parsed JSON shapes) rather than as raw text.
* Mutable accumulation (arrays, counters, the spreadsheet) is modelled by
  explicit state passing; early `return` inside loops is modelled with
  `Except`.
-/

/-! ## JS string model: code-unit lists

`trim`, case-insensitive anchored prefix stripping (the sources' regex
replaces) and `toLowerCase` from `normalizeDoi` (assets/js/app.js, also
part_000) and `normalizeDoi_` (code.gs). -/

/-- JS whitespace (the ASCII part relevant to `String.prototype.trim`). -/
def jsSpace (n : Nat) : Bool :=
  decide (n = 32 ∨ n = 9 ∨ n = 10 ∨ n = 13 ∨ n = 11 ∨ n = 12)

/-- ASCII lower-casing of one code unit (model of `toLowerCase`). -/
def lowerCode (n : Nat) : Nat :=
  if 65 ≤ n ∧ n ≤ 90 then n + 32 else n

/-- Model of `String.prototype.trim`: drop whitespace at both ends. -/
def trimCodes (s : List Nat) : List Nat :=
  ((s.dropWhile jsSpace).reverse.dropWhile jsSpace).reverse

/-- Case-insensitive anchored prefix test (`pat` is given lower-cased),
modelling a `/^pat/i` regex test. -/
def matchesCI (pat : List Nat) (s : List Nat) : Bool :=
  decide ((s.take pat.length).map lowerCode = pat)

/-- Model of `s.replace(/^(p1|p2|...)/i, "")`: strip the first matching
alternative (the alternatives used below are mutually exclusive). -/
def stripFirstCI (pats : List (List Nat)) (s : List Nat) : List Nat :=
  match pats.find? (fun p => matchesCI p s) with
  | some p => s.drop p.length
  | none => s

/-- Code units of a Lean string literal. -/
def strCodes (s : String) : List Nat :=
  s.data.map Char.toNat

/-- Back from code units to a Lean string (used only on valid codes). -/
def codesStr (l : List Nat) : String :=
  String.mk (l.map Char.ofNat)

/-- Alternatives of `/^https?:\/\/(dx\.)?doi\.org\//i` (app.js, part_000). -/
def appUrlPats : List (List Nat) :=
  [strCodes "http://doi.org/", strCodes "https://doi.org/",
   strCodes "http://dx.doi.org/", strCodes "https://dx.doi.org/"]

/-- Alternatives of `/^https?:\/\/doi\.org\//i` (code.gs). -/
def gsUrlPats : List (List Nat) :=
  [strCodes "http://doi.org/", strCodes "https://doi.org/"]

/-- The `/^doi:/i` pattern. -/
def doiSchemePat : List (List Nat) :=
  [strCodes "doi:"]

/-- Common shape of both DOI normalizers: trim, strip a resolver-URL
prefix, strip a `doi:` prefix, lower-case. -/
def normalizeDoiCore (urls : List (List Nat)) (s : List Nat) : List Nat :=
  (stripFirstCI doiSchemePat (stripFirstCI urls (trimCodes s))).map lowerCode

/-- `normalizeDoi` from assets/js/app.js (also part_000), on code units. -/
def normalizeDoiAppCodes (s : List Nat) : List Nat :=
  normalizeDoiCore appUrlPats s

/-- `normalizeDoi_` from code.gs, on code units. -/
def normalizeDoiGsCodes (s : List Nat) : List Nat :=
  normalizeDoiCore gsUrlPats s

/-- `normalizeDoi` from assets/js/app.js, at `String` level. -/
def normalizeDoi (s : String) : String :=
  codesStr (normalizeDoiAppCodes (strCodes s))

/-- `normalizeDoi_` from code.gs, at `String` level. -/
def normalizeDoiGs (s : String) : String :=
  codesStr (normalizeDoiGsCodes (strCodes s))

/-- Model of `String(x).trim()` at `String` level. -/
def jsTrim (s : String) : String :=
  codesStr (trimCodes (strCodes s))

/-! ## Status tables and the status merger (C1) -/

/-- `STATUS_SCORE` from assets/js/app.js (first variant). -/
def STATUS_SCORE (s : String) : Option Nat :=
  if s = "retracted" then some 5
  else if s = "expression_of_concern" then some 4
  else if s = "withdrawn" then some 4
  else if s = "corrected" then some 3
  else if s = "problem_no_doi" then some 2
  else if s = "problem_unknown" then some 1
  else if s = "ok" then some 0
  else none

/-- `STATUS_SCORE[x] ?? 0` as used by `pickMoreSevere` and
`compareBySeverity`. -/
def statusScore (s : String) : Nat :=
  (STATUS_SCORE s).getD 0

/-- `STATUS_SEVERITY` from the third app.js variant. -/
def STATUS_SEVERITY (s : String) : Option Nat :=
  if s = "retracted" then some 5
  else if s = "expression_of_concern" then some 4
  else if s = "withdrawn" then some 4
  else if s = "corrected" then some 3
  else if s = "ok" then some 2
  else if s = "no_doi" then some 1
  else if s = "unknown" then some 1
  else none

/-- `STATUS_SEVERITY[x] ?? 0`. -/
def statusSeverity (s : String) : Nat :=
  (STATUS_SEVERITY s).getD 0

/-- `pickMoreSevere` from assets/js/app.js. -/
def pickMoreSevere (a b : String) : String :=
  if statusScore a ≥ statusScore b then a else b

/-- `pickMoreSevereStatus` from the third app.js variant. -/
def pickMoreSevereStatus (a b : String) : String :=
  if statusSeverity a ≥ statusSeverity b then a else b

/-- C1: the status merge is monotonic: the severity of the merged status
is at least the severity of each input, under both severity tables used
by the sources (`pickMoreSevere` with `STATUS_SCORE`,
`pickMoreSevereStatus` with `STATUS_SEVERITY`), and the merged severity
does not depend on the order in which the two verdicts are supplied. -/
theorem pickMoreSevere_monotonic (a b : String) :
    (statusScore a ≤ statusScore (pickMoreSevere a b) ∧
     statusScore b ≤ statusScore (pickMoreSevere a b) ∧
     statusScore (pickMoreSevere a b) = statusScore (pickMoreSevere b a)) ∧
    (statusSeverity a ≤ statusSeverity (pickMoreSevereStatus a b) ∧
     statusSeverity b ≤ statusSeverity (pickMoreSevereStatus a b) ∧
     statusSeverity (pickMoreSevereStatus a b) =
       statusSeverity (pickMoreSevereStatus b a)) := by
  unfold pickMoreSevere pickMoreSevereStatus
  constructor
  · by_cases h : statusScore a ≥ statusScore b <;>
      by_cases h' : statusScore b ≥ statusScore a <;> simp [h, h'] <;> omega
  · by_cases h : statusSeverity a ≥ statusSeverity b <;>
      by_cases h' : statusSeverity b ≥ statusSeverity a <;> simp [h, h'] <;> omega

/-! ## C2: DOI normalization: case-insensitivity and (amended) idempotence -/

theorem lowerCode_idem (n : Nat) : lowerCode (lowerCode n) = lowerCode n := by
  by_cases h : 65 ≤ n ∧ n ≤ 90
  · simp only [lowerCode, if_pos h]
    rw [if_neg (by omega)]
  · simp only [lowerCode, if_neg h]

theorem jsSpace_lowerCode (n : Nat) : jsSpace (lowerCode n) = jsSpace n := by
  simp only [jsSpace, lowerCode]
  split <;> simp only [decide_eq_decide] <;> omega

theorem lowerCode_comp_idem : (lowerCode ∘ lowerCode) = lowerCode :=
  funext lowerCode_idem

theorem jsSpace_comp_lowerCode : (jsSpace ∘ lowerCode) = jsSpace :=
  funext jsSpace_lowerCode

theorem trimCodes_map_lower (s : List Nat) :
    trimCodes (s.map lowerCode) = (trimCodes s).map lowerCode := by
  unfold trimCodes
  rw [List.dropWhile_map, jsSpace_comp_lowerCode, ← List.map_reverse,
    List.dropWhile_map, jsSpace_comp_lowerCode, ← List.map_reverse]

theorem matchesCI_map_lower (p s : List Nat) :
    matchesCI p (s.map lowerCode) = matchesCI p s := by
  simp only [matchesCI, ← List.map_take, List.map_map, lowerCode_comp_idem]

theorem find?_ext {α : Type} (p q : α → Bool) (h : ∀ a, p a = q a)
    (l : List α) : l.find? p = l.find? q := by
  induction l with
  | nil => rfl
  | cons a l ih =>
    simp only [List.find?]
    rw [h a]
    cases q a
    · exact ih
    · rfl

theorem stripFirstCI_map_lower (pats : List (List Nat)) (s : List Nat) :
    stripFirstCI pats (s.map lowerCode) = (stripFirstCI pats s).map lowerCode := by
  unfold stripFirstCI
  rw [find?_ext _ _ (fun p => matchesCI_map_lower p s)]
  cases pats.find? (fun p => matchesCI p s) with
  | none => rfl
  | some p => exact (List.map_drop lowerCode s p.length).symm

theorem normalizeDoiCore_map_lower (urls : List (List Nat)) (s : List Nat) :
    normalizeDoiCore urls (s.map lowerCode) = normalizeDoiCore urls s := by
  unfold normalizeDoiCore
  rw [trimCodes_map_lower, stripFirstCI_map_lower, stripFirstCI_map_lower,
    List.map_map, lowerCode_comp_idem]

theorem normalizeDoiCore_fixed (urls : List (List Nat)) (y : List Nat)
    (h1 : trimCodes y = y) (h2 : stripFirstCI urls y = y)
    (h3 : stripFirstCI doiSchemePat y = y) (h4 : y.map lowerCode = y) :
    normalizeDoiCore urls y = y := by
  unfold normalizeDoiCore
  rw [h1, h2, h3, h4]

/-- C2 counterexample: DOI normalization is not idempotent as claimed.
A doubled `doi:` prefix, a space after the `doi:` prefix, and a resolver
URL hidden behind a `doi:` prefix each change again under a second
normalization pass; both `normalizeDoi` (app.js) and `normalizeDoi_`
(code.gs) are affected. -/
theorem normalizeDoi_not_idempotent :
    (normalizeDoiAppCodes (normalizeDoiAppCodes (strCodes "doi:doi:10.1/x")) ≠
      normalizeDoiAppCodes (strCodes "doi:doi:10.1/x")) ∧
    (normalizeDoiAppCodes (normalizeDoiAppCodes (strCodes "doi: 10.1/x")) ≠
      normalizeDoiAppCodes (strCodes "doi: 10.1/x")) ∧
    (normalizeDoiAppCodes
        (normalizeDoiAppCodes (strCodes "doi:https://doi.org/10.1/x")) ≠
      normalizeDoiAppCodes (strCodes "doi:https://doi.org/10.1/x")) ∧
    (normalizeDoiGsCodes (normalizeDoiGsCodes (strCodes "doi:doi:10.1/x")) ≠
      normalizeDoiGsCodes (strCodes "doi:doi:10.1/x")) ∧
    (normalizeDoiGsCodes (normalizeDoiGsCodes (strCodes "doi: 10.1/x")) ≠
      normalizeDoiGsCodes (strCodes "doi: 10.1/x")) ∧
    (normalizeDoiGsCodes
        (normalizeDoiGsCodes (strCodes "doi:https://doi.org/10.1/x")) ≠
      normalizeDoiGsCodes (strCodes "doi:https://doi.org/10.1/x")) := by
  decide

/-- C2 (amended): DOI normalization is case-insensitive on all inputs
(normalizing any two strings that agree up to ASCII case gives the same
result), and it is idempotent on every input whose normalized form is
stable under trimming and carries no further strippable `doi:` or
resolver-URL prefix; this holds for both `normalizeDoi` (app.js) and
`normalizeDoi_` (code.gs). -/
theorem normalizeDoi_case_insensitive_and_idempotent :
    (∀ x y : List Nat, x.map lowerCode = y.map lowerCode →
      normalizeDoiAppCodes x = normalizeDoiAppCodes y ∧
      normalizeDoiGsCodes x = normalizeDoiGsCodes y) ∧
    (∀ x : List Nat,
      trimCodes (normalizeDoiAppCodes x) = normalizeDoiAppCodes x →
      stripFirstCI appUrlPats (normalizeDoiAppCodes x) = normalizeDoiAppCodes x →
      stripFirstCI doiSchemePat (normalizeDoiAppCodes x) = normalizeDoiAppCodes x →
      normalizeDoiAppCodes (normalizeDoiAppCodes x) = normalizeDoiAppCodes x) ∧
    (∀ x : List Nat,
      trimCodes (normalizeDoiGsCodes x) = normalizeDoiGsCodes x →
      stripFirstCI gsUrlPats (normalizeDoiGsCodes x) = normalizeDoiGsCodes x →
      stripFirstCI doiSchemePat (normalizeDoiGsCodes x) = normalizeDoiGsCodes x →
      normalizeDoiGsCodes (normalizeDoiGsCodes x) = normalizeDoiGsCodes x) := by
  refine ⟨fun x y h => ?_, fun x h1 h2 h3 => ?_, fun x h1 h2 h3 => ?_⟩
  · constructor
    · calc normalizeDoiAppCodes x = normalizeDoiCore appUrlPats (x.map lowerCode) :=
            (normalizeDoiCore_map_lower _ x).symm
        _ = normalizeDoiCore appUrlPats (y.map lowerCode) := by rw [h]
        _ = normalizeDoiAppCodes y := normalizeDoiCore_map_lower _ y
    · calc normalizeDoiGsCodes x = normalizeDoiCore gsUrlPats (x.map lowerCode) :=
            (normalizeDoiCore_map_lower _ x).symm
        _ = normalizeDoiCore gsUrlPats (y.map lowerCode) := by rw [h]
        _ = normalizeDoiGsCodes y := normalizeDoiCore_map_lower _ y
  · exact normalizeDoiCore_fixed _ _ h1 h2 h3
      (by unfold normalizeDoiAppCodes normalizeDoiCore
          rw [List.map_map, lowerCode_comp_idem])
  · exact normalizeDoiCore_fixed _ _ h1 h2 h3
      (by unfold normalizeDoiGsCodes normalizeDoiCore
          rw [List.map_map, lowerCode_comp_idem])

/-- C2 witness: the amended idempotence and case-insensitivity hold at
concrete inputs whose normalized forms are prefix-free. -/
theorem normalizeDoi_amended_witness :
    normalizeDoiAppCodes (normalizeDoiAppCodes (strCodes "DOI:10.1/AbC")) =
      normalizeDoiAppCodes (strCodes "DOI:10.1/AbC") ∧
    normalizeDoiGsCodes (normalizeDoiGsCodes (strCodes "https://doi.org/10.5/Q")) =
      normalizeDoiGsCodes (strCodes "https://doi.org/10.5/Q") ∧
    normalizeDoiAppCodes (strCodes "doi:10.1/abc") =
      normalizeDoiAppCodes (strCodes "DOI:10.1/ABC") :=
  ⟨normalizeDoi_case_insensitive_and_idempotent.2.1 _ (by decide) (by decide)
      (by decide),
   normalizeDoi_case_insensitive_and_idempotent.2.2 _ (by decide) (by decide)
      (by decide),
   (normalizeDoi_case_insensitive_and_idempotent.1 _ _ (by decide)).1⟩

/-! ## C9: the "interesting" subset and its severity ordering

Embeds `compareBySeverity` and step 3 of `analyzeDoi` from
assets/js/app.js (first variant): filter out `ok` references, then sort
by the comparator. `Array.prototype.sort` is modelled by an insertion
sort with respect to `compareBySeverity(a, b) <= 0`; the uniqueness part
of the claim shows the result is independent of the sorting algorithm. -/

/-- One classified reference row of analyzeDoi (assets/js/app.js). -/
structure RefItem where
  idx : Nat
  title : String
  year : String
  doi : Option String
  openAlexId : String
  status : String
  notes : String
  citation : String
deriving DecidableEq

/-- `compareBySeverity` from assets/js/app.js. -/
def compareBySeverity (a b : RefItem) : Int :=
  if statusScore a.status ≠ statusScore b.status then
    (statusScore b.status : Int) - (statusScore a.status : Int)
  else
    (a.idx : Int) - (b.idx : Int)

/-- Comparator-as-order: `a` may be placed before `b`. -/
def sortLe (a b : RefItem) : Bool :=
  decide (compareBySeverity a b ≤ 0)

/-- Insertion step of the sort model. -/
def insertRef (a : RefItem) : List RefItem → List RefItem
  | [] => [a]
  | b :: l => if sortLe a b then a :: b :: l else b :: insertRef a l

/-- Sort model for `interesting.sort(compareBySeverity)`. -/
def sortRefs : List RefItem → List RefItem
  | [] => []
  | a :: l => insertRef a (sortRefs l)

/-- Step 3 of `analyzeDoi`: the "interesting" subset, sorted. -/
def interestingOf (l : List RefItem) : List RefItem :=
  sortRefs (l.filter (fun r => r.status ≠ "ok"))

/-- The strict presentation order: strictly higher severity first, ties
broken by strictly smaller original index. -/
def sevLT (a b : RefItem) : Prop :=
  statusScore b.status < statusScore a.status ∨
    (statusScore a.status = statusScore b.status ∧ a.idx < b.idx)

instance : DecidableRel sevLT := by
  unfold sevLT
  exact fun a b => inferInstanceAs (Decidable (_ ∨ _))

theorem sortLe_iff (a b : RefItem) :
    sortLe a b = true ↔
      (statusScore b.status < statusScore a.status ∨
        (statusScore a.status = statusScore b.status ∧ a.idx ≤ b.idx)) := by
  unfold sortLe compareBySeverity
  by_cases h : statusScore a.status ≠ statusScore b.status <;>
    simp [h] <;> omega

theorem sortLe_total (a b : RefItem) : sortLe a b = true ∨ sortLe b a = true := by
  rw [sortLe_iff, sortLe_iff]
  omega

theorem sortLe_trans {a b c : RefItem} (h1 : sortLe a b = true)
    (h2 : sortLe b c = true) : sortLe a c = true := by
  rw [sortLe_iff] at h1 h2 ⊢
  omega

theorem insertRef_perm (a : RefItem) (l : List RefItem) :
    (insertRef a l).Perm (a :: l) := by
  induction l with
  | nil => exact List.Perm.refl _
  | cons b l ih =>
    unfold insertRef
    split
    · exact List.Perm.refl _
    · exact (List.Perm.cons b ih).trans (List.Perm.swap a b l)

theorem sortRefs_perm (l : List RefItem) : (sortRefs l).Perm l := by
  induction l with
  | nil => exact List.Perm.refl _
  | cons a l ih => exact (insertRef_perm a (sortRefs l)).trans (ih.cons a)

theorem insertRef_pairwise (a : RefItem) (l : List RefItem)
    (h : l.Pairwise (fun x y => sortLe x y = true)) :
    (insertRef a l).Pairwise (fun x y => sortLe x y = true) := by
  induction l with
  | nil => simp [insertRef]
  | cons b l ih =>
    rcases List.pairwise_cons.mp h with ⟨hb, hl⟩
    unfold insertRef
    split
    · rename_i hab
      refine List.pairwise_cons.mpr ⟨?_, h⟩
      intro y hy
      rcases List.mem_cons.mp hy with rfl | hy
      · exact hab
      · exact sortLe_trans hab (hb y hy)
    · rename_i hab
      have hba : sortLe b a = true := by
        rcases sortLe_total a b with h' | h'
        · exact absurd h' hab
        · exact h'
      refine List.pairwise_cons.mpr ⟨?_, ih hl⟩
      intro y hy
      have hmem := (insertRef_perm a l).mem_iff.mp hy
      rcases List.mem_cons.mp hmem with rfl | hmem
      · exact hba
      · exact hb y hmem

theorem sortRefs_pairwise (l : List RefItem) :
    (sortRefs l).Pairwise (fun x y => sortLe x y = true) := by
  induction l with
  | nil => simp [sortRefs]
  | cons a l ih => exact insertRef_pairwise a (sortRefs l) ih

instance : IsAntisymm RefItem sevLT where
  antisymm a b h1 h2 := by
    unfold sevLT at h1 h2
    exact absurd rfl (by omega : ¬ (0 : Nat) = 0)

/-- C9: for every classified reference list whose entries carry pairwise
distinct original indices (as `analyzeDoi` produces), the "interesting"
subset is exactly the non-`ok` references, it is sorted strictly by
descending severity score with ties broken by ascending original index,
and it is the unique such list: any ordering of the non-`ok` references
satisfying the same sortedness equals it. -/
theorem interesting_subset_exact (l : List RefItem)
    (hidx : l.Pairwise (fun a b => a.idx ≠ b.idx)) :
    (interestingOf l).Perm (l.filter (fun r => r.status ≠ "ok")) ∧
    (interestingOf l).Pairwise sevLT ∧
    (∀ m : List RefItem, m.Perm (l.filter (fun r => r.status ≠ "ok")) →
      m.Pairwise sevLT → m = interestingOf l) := by
  have hperm : (interestingOf l).Perm (l.filter (fun r => r.status ≠ "ok")) :=
    sortRefs_perm _
  have hidxf : (l.filter (fun r => r.status ≠ "ok")).Pairwise
      (fun a b => a.idx ≠ b.idx) := hidx.filter _
  have hidxs : (interestingOf l).Pairwise (fun a b => a.idx ≠ b.idx) :=
    ((hperm.pairwise_iff (fun h => Ne.symm h)).mpr hidxf)
  have hsorted : (interestingOf l).Pairwise sevLT := by
    have hle : (interestingOf l).Pairwise (fun x y => sortLe x y = true) :=
      sortRefs_pairwise _
    have := hle.and hidxs
    refine this.imp ?_
    intro a b hab
    rcases hab with ⟨hab, hne⟩
    rw [sortLe_iff] at hab
    unfold sevLT
    rcases hab with h' | h'
    · exact Or.inl h'
    · exact Or.inr ⟨h'.1, by omega⟩
  refine ⟨hperm, hsorted, ?_⟩
  intro m hm hms
  exact List.eq_of_perm_of_sorted (hm.trans hperm.symm) hms hsorted

/-- C9 witness: the ordering theorem applied at a concrete classified
list: a retracted reference is listed before a no-DOI one, `ok` rows are
excluded, and the ordering is the unique sorted one. -/
theorem interesting_subset_exact_witness :
    (interestingOf
        [⟨1, "a", "", none, "", "ok", "", ""⟩,
         ⟨2, "b", "", some "10.1/b", "", "problem_no_doi", "", ""⟩,
         ⟨3, "c", "", some "10.1/c", "", "retracted", "", ""⟩]).Pairwise sevLT :=
  (interesting_subset_exact _ (by decide)).2.1

/-! ## C8: combined-status evidence text and its source order

Embeds `getCombinedRetractionInfoForDoi` from assets/js/app.js (first
variant). The three concurrently awaited provider results are supplied
as already-settled oracle functions, which is exactly what
`Promise.all` destructuring delivers: the combination is a function of
the settled verdicts only, independent of completion order. -/

/-- Verdict of one source: a status plus its evidence note. -/
structure SourceInfo where
  status : String
  notes : String
deriving DecidableEq

/-- Verdict of the PubMed source (carries the resolved PMID). -/
structure PubMedInfo where
  status : String
  notes : String
  pmid : Option String
deriving DecidableEq

/-- `getCombinedRetractionInfoForDoi` from assets/js/app.js (first
variant): merge Crossref, PubMed, the Retraction Watch index hit and
the OpenAlex flag; notes are pushed in that code order and joined. -/
def getCombinedRetractionInfoForDoi (cr : String → SourceInfo)
    (pm : String → PubMedInfo) (rwHas : String → Bool)
    (doi : String) (isRetractedOpenAlex : Bool) : SourceInfo :=
  let c := cr doi
  let p := pm doi
  let rwHit := rwHas doi
  let status1 := pickMoreSevere c.status p.status
  let notes1 := [c.notes, p.notes].filter (fun s => s ≠ "")
  let status2 := if rwHit then pickMoreSevere status1 "retracted" else status1
  let notes2 := if rwHit then
      notes1 ++ ["Retraction Watch index: DOI present."] else notes1
  let status3 := if isRetractedOpenAlex then
      pickMoreSevere status2 "retracted" else status2
  let notes3 := if isRetractedOpenAlex then
      notes2 ++ ["OpenAlex: is_retracted = true."] else notes2
  let notes4 := match p.pmid with
    | some id => notes3 ++ ["PubMed PMID: " ++ id ++ "."]
    | none => notes3
  { status := status3, notes := String.intercalate " " notes4 }

/-- Evidence text in the fixed source order stated by the spec:
bulk-index membership first, then the self-reported flag, then the
registrar (Crossref) feed, then the record-type (PubMed) feed. Written
from the spec's words, for comparison with the code's order. -/
def specOrderEvidence (cr : String → SourceInfo) (pm : String → PubMedInfo)
    (rwHas : String → Bool) (doi : String) (isRetractedOpenAlex : Bool) :
    String :=
  String.intercalate " "
    ((if rwHas doi then ["Retraction Watch index: DOI present."] else []) ++
     (if isRetractedOpenAlex then ["OpenAlex: is_retracted = true."] else []) ++
     ([(cr doi).notes, (pm doi).notes].filter (fun s => s ≠ "")) ++
     (match (pm doi).pmid with
      | some id => ["PubMed PMID: " ++ id ++ "."]
      | none => []))

/-- Evidence text in the fixed order the code actually uses: registrar
(Crossref) feed, then record-type (PubMed) feed, then bulk-index
membership, then the self-reported OpenAlex flag, then the PMID note. -/
def codeOrderEvidence (cr : String → SourceInfo) (pm : String → PubMedInfo)
    (rwHas : String → Bool) (doi : String) (isRetractedOpenAlex : Bool) :
    String :=
  String.intercalate " "
    (([(cr doi).notes, (pm doi).notes].filter (fun s => s ≠ "")) ++
     (if rwHas doi then ["Retraction Watch index: DOI present."] else []) ++
     (if isRetractedOpenAlex then ["OpenAlex: is_retracted = true."] else []) ++
     (match (pm doi).pmid with
      | some id => ["PubMed PMID: " ++ id ++ "."]
      | none => []))

/-- C8 counterexample: when all four sources contribute a note, the
merged evidence is not in the spec's stated source order (bulk index,
self flag, registrar, record type): the code emits the registrar and
record-type notes first. -/
theorem combined_evidence_not_spec_order :
    (getCombinedRetractionInfoForDoi
        (fun _ => ⟨"ok", "Crossref: no retraction/correction signals."⟩)
        (fun _ => ⟨"ok", "PubMed: no retraction-related publication types.", none⟩)
        (fun _ => true) "10.1/x" true).notes ≠
      specOrderEvidence
        (fun _ => ⟨"ok", "Crossref: no retraction/correction signals."⟩)
        (fun _ => ⟨"ok", "PubMed: no retraction-related publication types.", none⟩)
        (fun _ => true) "10.1/x" true := by
  decide

/-- C8 (amended): the merged evidence text for one DOI is the
concatenation of each contributing source's note in the fixed code
order: registrar (Crossref) feed, then record-type (PubMed) feed, then
bulk-index membership, then the self-reported flag, then the PMID note;
being a function of the settled verdicts only, it is identical under
every completion order of the concurrent provider calls. -/
theorem combined_evidence_fixed_order (cr : String → SourceInfo)
    (pm : String → PubMedInfo) (rwHas : String → Bool)
    (doi : String) (isRetractedOpenAlex : Bool) :
    (getCombinedRetractionInfoForDoi cr pm rwHas doi isRetractedOpenAlex).notes
      = codeOrderEvidence cr pm rwHas doi isRetractedOpenAlex := by
  unfold getCombinedRetractionInfoForDoi codeOrderEvidence
  cases hpm : (pm doi).pmid <;> cases hrw : rwHas doi <;>
    cases isRetractedOpenAlex <;> simp [hpm, hrw, List.append_assoc]

/-! ## C3: the part_000 reference resolver: contiguous 1..R indices

Embeds step 2 of `analyzeDoi` from src/unnamed/part_000 together with
`classifyReference`, `classifyReferenceError` and the chunked batch
loop. The whole of `fetchOpenAlexRefsBatch` (network plus JSON) is an
oracle `p` mapping a requested slice to a thrown error or a result
list, so the theorem quantifies over out-of-order, partial, duplicated
and failing provider behaviour. -/

/-- Batch partition with the sources' batch size 40
(`OPENALEX_REF_BATCH_SIZE` in part_000, `batchSizeRefs` in code.gs). -/
def chunksGo {α : Type} : Nat → List α → List (List α)
  | _, [] => []
  | 0, l => [l]
  | fuel + 1, l => l.take 40 :: chunksGo fuel (l.drop 40)

def chunks40 {α : Type} (l : List α) : List (List α) :=
  chunksGo l.length l

theorem chunksGo_sum {α : Type} :
    ∀ (fuel : Nat) (l : List α), l.length ≤ fuel →
      ((chunksGo fuel l).map List.length).sum = l.length := by
  intro fuel
  induction fuel with
  | zero =>
    intro l h
    have : l = [] := List.length_eq_zero.mp (Nat.le_zero.mp h)
    subst this
    rfl
  | succ fuel ih =>
    intro l h
    cases l with
    | nil => rfl
    | cons a rest =>
      simp only [chunksGo, List.map_cons, List.sum_cons]
      rw [ih ((a :: rest).drop 40)
        (by rw [List.length_drop]; simp only [List.length_cons] at h ⊢; omega)]
      rw [List.length_take, List.length_drop]
      omega

theorem chunks40_sum {α : Type} (l : List α) :
    ((chunks40 l).map List.length).sum = l.length :=
  chunksGo_sum l.length l (Nat.le_refl _)

namespace P0

/-- One referenced work as returned by the part_000 batch fetch (the
`select`ed OpenAlex fields; an empty string models a JS falsy field).
The presentational `host_venue`/`authorships`/`biblio` fields feeding
only the citation string are not carried. -/
structure Work where
  id : String
  doi : String
  is_retracted : Bool
  display_name : String
  publication_year : String
deriving DecidableEq

/-- One classified reference of part_000 (citation string omitted). -/
structure Ref where
  idx : Nat
  title : String
  year : String
  doi : String
  openAlexId : String
  status : String
  viaRW : Bool
  viaOA : Bool
  notes : String
deriving DecidableEq

/-- Strip a leading occurrence of `pre` (model of
`.replace("https://openalex.org/", "")` on ids, where the URL occurs as
a prefix). -/
def dropPre (pre s : String) : String :=
  if pre.data.isPrefixOf s.data then String.mk (s.data.drop pre.data.length)
  else s

/-- `classifyReference` from part_000. -/
def classifyReference (idx : Nat) (w : Work) (rwIndex : List String) : Ref :=
  let refDoi := w.doi
  let isRetractedOpenAlex := w.is_retracted
  let st1 := if isRetractedOpenAlex then "retracted" else "ok"
  let notes1 := if isRetractedOpenAlex then
      ["OpenAlex: is_retracted = true."] else []
  let rwHit := refDoi ≠ "" && !rwIndex.isEmpty &&
      decide (normalizeDoi refDoi ∈ rwIndex)
  let st2 := if rwHit then "retracted" else st1
  let notes2 := if rwHit then
      notes1 ++ ["Retraction Watch CSV: DOI present."] else notes1
  let st3 := if refDoi = "" ∧ st2 = "ok" then "problem_no_doi" else st2
  let notes3 := if refDoi = "" ∧ st2 = "ok" then
      notes2 ++ ["No DOI available; cannot consult DOI-based indexes."]
    else notes2
  { idx := idx, title := w.display_name, year := w.publication_year,
    doi := refDoi, openAlexId := w.id, status := st3,
    viaRW := rwHit, viaOA := isRetractedOpenAlex,
    notes := String.intercalate " " notes3 }

/-- `classifyReferenceError` from part_000. -/
def classifyReferenceError (idx : Nat) (openAlexId : String)
    (errorMessage : String) : Ref :=
  let shortId := dropPre "https://openalex.org/" openAlexId
  { idx := idx,
    title := "Reference unavailable in OpenAlex (ID: " ++ shortId ++ ")",
    year := "", doi := "", openAlexId := openAlexId,
    status := "problem_unknown", viaRW := false, viaOA := false,
    notes := "Error fetching OpenAlex work for this reference: " ++
      (if errorMessage = "" then "unknown error" else errorMessage) }

/-- The `mapById` lookup: `Map.set` keyed by truthy `w.id` (last write
wins), then `mapById.get(refId)`. -/
def lookupById (ws : List Work) (id : String) : Option Work :=
  if id = "" then none else (ws.filter (fun w => w.id = id)).getLast?

/-- Emission of one batch slice: `idxCounter++` then push, one entry per
requested id. -/
def emitBatch (f : Nat → String → Ref) : List String → Nat → List Ref
  | [], _ => []
  | id :: rest, n => f (n + 1) id :: emitBatch f rest (n + 1)

/-- Resolution of one batch slice of `analyzeDoi` (part_000): a failed
provider call classifies every id of the slice as an error reference;
otherwise each id is re-associated through `mapById`, with a
"not returned" classification for missing ids. -/
def resolveBatch (rw : List String)
    (p : List String → Except String (List Work))
    (slice : List String) (n : Nat) : List Ref :=
  match p slice with
  | .error e =>
      emitBatch (fun k id =>
        classifyReferenceError k id (if e = "" then "batch error" else e)) slice n
  | .ok works =>
      emitBatch (fun k id =>
        match lookupById works id with
        | none => classifyReferenceError k id "not returned in OpenAlex results"
        | some w => classifyReference k w rw) slice n

/-- The chunked reference loop of `analyzeDoi` (part_000). -/
def resolveChunks (rw : List String)
    (p : List String → Except String (List Work)) :
    List (List String) → Nat → List Ref
  | [], _ => []
  | c :: cs, n => resolveBatch rw p c n ++ resolveChunks rw p cs (n + c.length)

/-- Step 2 of `analyzeDoi` (part_000): classify the whole reference-id
list in batches of 40. -/
def analyzeDoiRefs (rw : List String)
    (p : List String → Except String (List Work))
    (refIds : List String) : List Ref :=
  resolveChunks rw p (chunks40 refIds) 0

theorem emitBatch_idx (f : Nat → String → Ref)
    (h : ∀ k id, (f k id).idx = k) :
    ∀ (l : List String) (n : Nat),
      (emitBatch f l n).map Ref.idx = List.range' (n + 1) l.length := by
  intro l
  induction l with
  | nil => intro n; rfl
  | cons id rest ih =>
    intro n
    simp only [emitBatch, List.map_cons, List.length_cons]
    rw [h, ih]
    rfl

theorem emitBatch_mem (f : Nat → String → Ref) (l : List String) (n : Nat)
    (r : Ref) (hr : r ∈ emitBatch f l n) : ∃ k id, r = f k id := by
  induction l generalizing n with
  | nil => cases hr
  | cons a rest ih =>
    rcases List.mem_cons.mp hr with rfl | hr
    · exact ⟨n + 1, a, rfl⟩
    · exact ih (n + 1) hr

theorem resolveBatch_idx (rw : List String)
    (p : List String → Except String (List Work))
    (slice : List String) (n : Nat) :
    (resolveBatch rw p slice n).map Ref.idx = List.range' (n + 1) slice.length := by
  unfold resolveBatch
  cases p slice with
  | error e => exact emitBatch_idx _ (fun k id => rfl) slice n
  | ok works =>
    refine emitBatch_idx _ (fun k id => ?_) slice n
    cases lookupById works id <;> rfl

theorem resolveChunks_idx (rw : List String)
    (p : List String → Except String (List Work))
    (cs : List (List String)) :
    ∀ n, (resolveChunks rw p cs n).map Ref.idx =
      List.range' (n + 1) ((cs.map List.length).sum) := by
  induction cs with
  | nil => intro n; rfl
  | cons c cs ih =>
    intro n
    simp only [resolveChunks, List.map_append, List.map_cons, List.sum_cons]
    rw [resolveBatch_idx, ih]
    have := List.range'_append (n + 1) c.length ((cs.map List.length).sum) 1
    simp only [one_mul] at this
    rw [show n + c.length + 1 = n + 1 + c.length by omega, this]
    exact congrArg (fun m => List.range' (n + 1) m 1) (Nat.add_comm _ _)

/-- C3: for every focal reference-id list and every provider behaviour
(out-of-order, partial, duplicated or failing batch responses), the
part_000 resolver emits exactly one Reference per id, whose `idx`
values are the contiguous sequence `1..R` in reference-list order (no
duplicates, no gaps); and every id of a batch whose provider call
failed is emitted with the unknown-classification status
(`problem_unknown` in this variant) rather than dropped. -/
theorem resolver_indices_contiguous (rw : List String)
    (p : List String → Except String (List Work))
    (refIds : List String) :
    ((analyzeDoiRefs rw p refIds).map Ref.idx =
      List.range' 1 refIds.length) ∧
    (∀ slice n e, p slice = Except.error e →
      ∀ r ∈ resolveBatch rw p slice n, r.status = "problem_unknown") := by
  constructor
  · unfold analyzeDoiRefs
    rw [resolveChunks_idx, chunks40_sum]
  · intro slice n e hp r hr
    unfold resolveBatch at hr
    rw [hp] at hr
    rcases emitBatch_mem _ _ _ _ hr with ⟨k, id, rfl⟩
    rfl

/-- C3 witness: a two-id reference list against a provider whose batch
call fails outright still yields indices `[1, 2]`, and a failed-batch
entry carries the unknown classification. -/
theorem resolver_indices_contiguous_witness :
    ((analyzeDoiRefs [] (fun _ => Except.error "boom")
        ["https://openalex.org/W1", "https://openalex.org/W2"]).map Ref.idx =
      List.range' 1 2) ∧
    (classifyReferenceError 1 "https://openalex.org/W1" "boom").status =
      "problem_unknown" :=
  ⟨(resolver_indices_contiguous [] (fun _ => Except.error "boom")
      ["https://openalex.org/W1", "https://openalex.org/W2"]).1,
   (resolver_indices_contiguous [] (fun _ => Except.error "boom")
      ["https://openalex.org/W1", "https://openalex.org/W2"]).2
      ["https://openalex.org/W1", "https://openalex.org/W2"] 0 "boom" rfl
      (classifyReferenceError 1 "https://openalex.org/W1" "boom")
      (List.mem_cons_self _ _)⟩

end P0

/-! ## code.gs embedding: fetch-with-retry, bulk-index loader, per-DOI
classification and the batch runner

Supports C4 (bulk-index short-circuit), C5 (resumability), C6
(retry/backoff and rate-limit error handling), C7 (fail-soft index
load) and C10 (retracted-DOI list duplication). HTTP is an oracle per
attempt; JSON payloads are modelled by their parsed shapes. -/

namespace Gs

/-- Outcome of one `UrlFetchApp.fetch` call: a thrown network exception
or an HTTP response (status code plus parsed body). -/
inductive FetchAttempt (β : Type) where
  | throwErr (msg : String)
  | resp (code : Nat) (body : β)
deriving DecidableEq

/-- Loop of `fetchWithRetry_` (code.gs): attempts `0..maxRetries` with
`maxRetries = 2`, initial delay 3000 ms doubling after each failed
attempt; returns the result together with the list of sleeps taken.
The `fuel = 0` case is the unreachable fall-through return. -/
def fetchRetryGo {β : Type} (label : String) (f : Nat → FetchAttempt β) :
    Nat → Nat → Nat → List Nat → Except String (Nat × β) × List Nat
  | _, 0, _, sleeps =>
    (Except.error (label ++ " unknown fetch failure"), sleeps)
  | attempt, fuel + 1, delayMs, sleeps =>
    match f attempt with
    | .throwErr e =>
      if attempt = 2 then
        (Except.error (label ++ " network error: " ++ e), sleeps)
      else
        fetchRetryGo label f (attempt + 1) fuel (delayMs * 2) (sleeps ++ [delayMs])
    | .resp code body =>
      if code = 429 then
        if attempt = 2 then
          (Except.error (label ++ " HTTP 429 (rate limited)"), sleeps)
        else
          fetchRetryGo label f (attempt + 1) fuel (delayMs * 2) (sleeps ++ [delayMs])
      else
        (Except.ok (code, body), sleeps)

/-- `fetchWithRetry_` from code.gs. -/
def fetchWithRetry {β : Type} (label : String) (f : Nat → FetchAttempt β) :
    Except String (Nat × β) × List Nat :=
  fetchRetryGo label f 0 3 3000 []

/-- Parsed body of the focal-work endpoint: invalid JSON, a falsy or
non-object payload, or a work object (absent `referenced_works` is the
empty list, which the code treats identically). -/
structure WorkJson where
  is_retracted : Bool
  referenced_works : List String
deriving DecidableEq

inductive WorkBody where
  | invalid
  | nonObject
  | obj (w : WorkJson)
deriving DecidableEq

/-- One entry of the reference-batch `results` array. -/
structure RefWork where
  doi : String
  is_retracted : Bool
deriving DecidableEq

/-- Parsed body of the reference-batch endpoint; `noResults` models a
payload that is falsy or lacks a `results` array; `results` entries may
be `none` (null items are skipped). -/
inductive RefsBody where
  | invalid
  | noResults
  | results (rs : List (Option RefWork))
deriving DecidableEq

/-- `RW_CACHE` shape: `{ error, map }`. -/
structure RwCache where
  error : Option String
  map : Option (List String)
deriving DecidableEq

/-- Row result committed back to columns L-O; `none` for the
references-evaluated cell models the empty string the code writes. -/
structure RowResult where
  statusLabel : String
  reason : String
  referencesEvaluated : Option Nat
  retractedDoisText : String
deriving DecidableEq

/-- The guarded map lookup `rwCache && rwCache.map && rwCache.map[d]`. -/
def rwHit (c : RwCache) (d : String) : Bool :=
  match c.map with
  | some m => decide (d ∈ m)
  | none => false

/-- The fast-path test of `checkReferencesForDoi_`: the normalized focal
DOI is truthy and present in the Retraction Watch map. -/
def selfHitRW (c : RwCache) (doi : String) : Bool :=
  normalizeDoiGs doi != "" && rwHit c (normalizeDoiGs doi)

/-- Split a character list at a separator (model of `split("/")`). -/
def splitChar (sep : Char) : List Char → List (List Char)
  | [] => [[]]
  | c :: rest =>
    let r := splitChar sep rest
    if c = sep then [] :: r
    else
      match r with
      | [] => [[c]]
      | h :: t => (c :: h) :: t

/-- `parts[parts.length - 1]` after `String(full).split("/")`. -/
def lastSeg (s : String) : String :=
  match (splitChar '/' s.data).getLast? with
  | some l => String.mk l
  | none => ""

/-- W-id extraction for one slice (skip falsy ids and falsy segments). -/
def extractWids (slice : List String) : List String :=
  slice.filterMap (fun full =>
    if full = "" then none
    else if lastSeg full = "" then none
    else some (lastSeg full))

/-- Accumulated state of the reference loop of `checkReferencesForDoi_`. -/
structure RefLoopState where
  evaluated : Nat
  retractedCount : Nat
  viaRW : Nat
  viaOA : Nat
  retractedDois : List String
deriving DecidableEq

/-- Processing of one item of a `results` array (null items skipped). -/
def processRefItem (c : RwCache) (st : RefLoopState) (item : Option RefWork) :
    RefLoopState :=
  match item with
  | none => st
  | some r =>
    let evaluated := st.evaluated + 1
    let refRetractedOA := r.is_retracted
    let refRetractedRW := r.doi != "" && normalizeDoiGs r.doi != "" &&
        rwHit c (normalizeDoiGs r.doi)
    if refRetractedOA || refRetractedRW then
      { evaluated := evaluated,
        retractedCount := st.retractedCount + 1,
        viaRW := if refRetractedRW then st.viaRW + 1 else st.viaRW,
        viaOA := if refRetractedOA then st.viaOA + 1 else st.viaOA,
        retractedDois :=
          if r.doi != "" && normalizeDoiGs r.doi != "" then
            st.retractedDois ++ [normalizeDoiGs r.doi]
          else st.retractedDois }
    else
      { st with evaluated := evaluated }

def processRefItems (c : RwCache) :
    List (Option RefWork) → RefLoopState → RefLoopState
  | [], st => st
  | it :: rest, st => processRefItems c rest (processRefItem c st it)

/-- Handling of one fetched batch: the early `return`s inside the loop
become `Except.error` carrying the committed row. -/
def processChunk (c : RwCache) (selfNote : String)
    (fr : Except String (Nat × RefsBody)) (st : RefLoopState) :
    Except RowResult RefLoopState :=
  match fr with
  | .error e =>
    Except.error ⟨"ERROR", selfNote ++ " | " ++ e, some st.evaluated,
      String.intercalate ", " st.retractedDois⟩
  | .ok (code, body) =>
    if code ≠ 200 then
      Except.error ⟨"ERROR", selfNote ++ " | OpenAlex refs HTTP " ++ toString code,
        some st.evaluated, String.intercalate ", " st.retractedDois⟩
    else
      match body with
      | .invalid =>
        Except.error ⟨"ERROR", selfNote ++ " | OpenAlex refs invalid JSON",
          some st.evaluated, String.intercalate ", " st.retractedDois⟩
      | .noResults => Except.ok st
      | .results rs => Except.ok (processRefItems c rs st)

/-- The batched reference loop (`for start ... += batchSizeRefs`); the
oracle `rf` is indexed by chunk ordinal and then by retry attempt; a
chunk with no extractable W-ids is skipped without a fetch. -/
def refsLoop (c : RwCache) (rf : Nat → Nat → FetchAttempt RefsBody)
    (selfNote : String) :
    List (List String) → Nat → RefLoopState → Except RowResult RefLoopState
  | [], _, st => Except.ok st
  | slice :: rest, k, st =>
    if (extractWids slice).isEmpty then refsLoop c rf selfNote rest (k + 1) st
    else
      match processChunk c selfNote
          (fetchWithRetry "OpenAlex references" (rf k)).1 st with
      | .error row => Except.error row
      | .ok st' => refsLoop c rf selfNote rest (k + 1) st'

/-- The `uniqMap`/`uniqList` deduplication pass (first occurrence kept). -/
def dedupGo (seen : List String) : List String → List String
  | [] => []
  | d :: rest =>
    if d ∈ seen then dedupGo seen rest else d :: dedupGo (d :: seen) rest

def dedup (l : List String) : List String :=
  dedupGo [] l

/-- The `selfNote` string computed from the focal work's flag. -/
def selfNoteOf (selfRetracted : Bool) : String :=
  if selfRetracted then "Self: retracted (OpenAlex)"
  else "Self: not retracted (OpenAlex)"

/-- Final assembly of `checkReferencesForDoi_` (steps after the
reference loop: dedup, status decision, reason bits). -/
def finishRow (c : RwCache) (selfRetracted : Bool) (selfNote : String)
    (st : RefLoopState) : RowResult :=
  let retractedDoisText :=
    if st.retractedDois.length > 0 then
      String.intercalate ", " (dedup st.retractedDois)
    else ""
  if st.evaluated = 0 then
    ⟨if selfRetracted then "RETRACTED" else "NO REFERENCES FOUND",
      selfNote ++ " | OpenAlex: references not resolved", some 0,
      retractedDoisText⟩
  else
    let statusLabel :=
      if selfRetracted then "RETRACTED"
      else if st.retractedCount > 0 then "CITES RETRACTED"
      else "NO RETRACTED CITATIONS FOUND"
    let bits :=
      [selfNote,
       "References: " ++ toString st.retractedCount ++ "/" ++
         toString st.evaluated ++ " flagged"] ++
      (if st.viaRW > 0 then ["via RW index: " ++ toString st.viaRW] else []) ++
      (if st.viaOA > 0 then ["via OpenAlex: " ++ toString st.viaOA] else []) ++
      (if c.error.isSome then
        ["RW index unavailable – only OpenAlex used for flags"] else [])
    ⟨statusLabel, String.intercalate " | " bits, some st.evaluated,
      retractedDoisText⟩

/-- `checkReferencesForDoi_` from code.gs. `wf` is the focal-work fetch
oracle (per attempt), `rf` the reference-batch oracle (per chunk and
attempt). -/
def checkReferencesForDoi (doi : String) (c : RwCache)
    (wf : Nat → FetchAttempt WorkBody)
    (rf : Nat → Nat → FetchAttempt RefsBody) : RowResult :=
  if selfHitRW c doi then
    ⟨"RETRACTED",
      "Self: retracted (Retraction Watch index) | References: not evaluated (RW short-circuit)",
      some 0, ""⟩
  else
    match (fetchWithRetry "OpenAlex work" wf).1 with
    | .error e => ⟨"ERROR", e, none, ""⟩
    | .ok (code, body) =>
      if code = 404 then ⟨"UNKNOWN", "OpenAlex: DOI not found", none, ""⟩
      else if code ≠ 200 then
        ⟨"ERROR", "OpenAlex work HTTP " ++ toString code, none, ""⟩
      else
        match body with
        | .invalid => ⟨"ERROR", "OpenAlex work invalid JSON", none, ""⟩
        | .nonObject => ⟨"UNKNOWN", "OpenAlex work: empty payload", none, ""⟩
        | .obj w =>
          let selfNote := selfNoteOf w.is_retracted
          if w.referenced_works.isEmpty then
            ⟨if w.is_retracted then "RETRACTED" else "NO REFERENCES FOUND",
              selfNote ++ " | OpenAlex: 0 references", some 0, ""⟩
          else
            match refsLoop c rf selfNote (chunks40 w.referenced_works) 0
                ⟨0, 0, 0, 0, []⟩ with
            | .error early => early
            | .ok st => finishRow c w.is_retracted selfNote st

/-- Split into lines at `/\r?\n/` (model: split at `\n`, then strip one
trailing `\r` per line). -/
def splitLinesJs (s : String) : List String :=
  (splitChar '\n' s.data).map (fun l =>
    if l.getLast? = some '\r' then String.mk l.dropLast else String.mk l)

/-- `getRetractionWatchCache_` from code.gs: non-200, empty-body and
thrown-exception outcomes produce an error cache with no map; a
successful fetch collects the normalized non-empty lines. -/
def getRetractionWatchCache (fo : FetchAttempt String) : RwCache :=
  match fo with
  | .throwErr e => ⟨some ("RW index exception: " ++ e), none⟩
  | .resp code text =>
    if code ≠ 200 then ⟨some ("RW index HTTP " ++ toString code), none⟩
    else if text = "" then ⟨some "RW index empty", none⟩
    else
      ⟨none, some ((splitLinesJs text).filterMap (fun line =>
        if line = "" then none
        else if normalizeDoiGs line = "" then none
        else some (normalizeDoiGs line)))⟩

end Gs

namespace Gs

theorem loader_map_entries_ne_empty (fo : FetchAttempt String)
    (m : List String) (hm : (getRetractionWatchCache fo).map = some m) :
    "" ∉ m := by
  cases fo with
  | throwErr e => simp [getRetractionWatchCache] at hm
  | resp code text =>
    simp only [getRetractionWatchCache] at hm
    by_cases hc : code ≠ 200
    · rw [if_pos hc] at hm
      simp at hm
    · rw [if_neg hc] at hm
      by_cases ht : text = ""
      · rw [if_pos ht] at hm
        simp at hm
      · rw [if_neg ht] at hm
        have hm' : _ = m := Option.some.inj hm
        intro hmem
        rw [← hm'] at hmem
        rcases List.mem_filterMap.mp hmem with ⟨line, _, hf⟩
        by_cases h1 : line = ""
        · simp [h1] at hf
        · by_cases h2 : normalizeDoiGs line = ""
          · simp [h1, h2] at hf
          · simp only [h1, h2, if_false, ite_false, Option.some.injEq] at hf

/-- C4: a focal DOI present in the loaded bulk retraction index makes the
per-DOI classification short-circuit: the committed result is status
`RETRACTED` with zero references evaluated and the fixed short-circuit
note, for every reference-list size and every provider behaviour
(`wf`/`rf` are unconstrained, so no provider is consulted). -/
theorem focal_doi_in_index_short_circuits (fo : FetchAttempt String)
    (doi : String) (m : List String)
    (hm : (getRetractionWatchCache fo).map = some m)
    (hmem : normalizeDoiGs doi ∈ m)
    (wf : Nat → FetchAttempt WorkBody)
    (rf : Nat → Nat → FetchAttempt RefsBody) :
    checkReferencesForDoi doi (getRetractionWatchCache fo) wf rf =
      ⟨"RETRACTED",
        "Self: retracted (Retraction Watch index) | References: not evaluated (RW short-circuit)",
        some 0, ""⟩ := by
  have hne : normalizeDoiGs doi ≠ "" := by
    intro h
    exact loader_map_entries_ne_empty fo m hm (h ▸ hmem)
  have hhit : selfHitRW (getRetractionWatchCache fo) doi = true := by
    unfold selfHitRW rwHit
    rw [hm]
    simp [hne, hmem]
  simp [checkReferencesForDoi, hhit]

/-- C4 witness: a one-line index body containing the focal DOI
short-circuits against providers that always fail. -/
theorem focal_doi_in_index_short_circuits_witness :
    checkReferencesForDoi "10.1/x"
        (getRetractionWatchCache (FetchAttempt.resp 200 "10.1/x\n"))
        (fun _ => FetchAttempt.throwErr "net")
        (fun _ _ => FetchAttempt.throwErr "net") =
      ⟨"RETRACTED",
        "Self: retracted (Retraction Watch index) | References: not evaluated (RW short-circuit)",
        some 0, ""⟩ :=
  focal_doi_in_index_short_circuits (FetchAttempt.resp 200 "10.1/x\n")
    "10.1/x" ["10.1/x"] (by decide) (by decide) _ _

end Gs

/-! ## C7: index load failure is fail-soft -/

/-- Separator class of the app.js token split `/[\s,;]+/`. -/
def isSepTok (c : Char) : Bool :=
  c = ' ' || c = '\t' || c = '\n' || c = '\r' || c = '\x0b' || c = '\x0c' ||
    c = ',' || c = ';'

/-- Maximal non-separator runs of a character list (empty tokens that a
JS split may produce are dropped; the caller filters them anyway). -/
def splitRunsGo (p : Char → Bool) : List Char → List Char → List String
  | [], cur => if cur.isEmpty then [] else [String.mk cur.reverse]
  | c :: rest, cur =>
    if p c then
      if cur.isEmpty then splitRunsGo p rest []
      else String.mk cur.reverse :: splitRunsGo p rest []
    else splitRunsGo p rest (c :: cur)

def splitTokens (s : String) : List String :=
  splitRunsGo isSepTok s.data []

/-- `ensureRetractionWatchIndex` from assets/js/app.js (first variant),
as a function of the single fetch outcome: a thrown error or a non-ok
status is caught and yields the empty set; a successful body is split
into tokens, normalized, and filtered to DOIs starting with `10.`. -/
def appLoadRwIndex (fo : Gs.FetchAttempt String) : List String :=
  match fo with
  | .throwErr _ => []
  | .resp code text =>
    if 200 ≤ code ∧ code ≤ 299 then
      (splitTokens text).filterMap (fun t =>
        if normalizeDoi t ≠ "" ∧ "10.".data.isPrefixOf (normalizeDoi t).data then
          some (normalizeDoi t)
        else none)
    else []

namespace Gs

theorem processRefItem_congr (c1 c2 : RwCache)
    (h : ∀ d, rwHit c1 d = rwHit c2 d) (st : RefLoopState)
    (it : Option RefWork) :
    processRefItem c1 st it = processRefItem c2 st it := by
  cases it with
  | none => rfl
  | some r => simp only [processRefItem, h]

theorem processRefItems_congr (c1 c2 : RwCache)
    (h : ∀ d, rwHit c1 d = rwHit c2 d) :
    ∀ (rs : List (Option RefWork)) (st : RefLoopState),
      processRefItems c1 rs st = processRefItems c2 rs st := by
  intro rs
  induction rs with
  | nil => intro st; rfl
  | cons it rest ih =>
    intro st
    simp only [processRefItems]
    rw [processRefItem_congr c1 c2 h, ih]

theorem processChunk_congr (c1 c2 : RwCache)
    (h : ∀ d, rwHit c1 d = rwHit c2 d) (selfNote : String)
    (fr : Except String (Nat × RefsBody)) (st : RefLoopState) :
    processChunk c1 selfNote fr st = processChunk c2 selfNote fr st := by
  unfold processChunk
  rcases fr with e | ⟨code, body⟩
  · rfl
  · by_cases hc : code ≠ 200
    · simp [hc]
    · cases body <;> simp [hc, processRefItems_congr c1 c2 h]

theorem refsLoop_congr (c1 c2 : RwCache)
    (h : ∀ d, rwHit c1 d = rwHit c2 d)
    (rf : Nat → Nat → FetchAttempt RefsBody) (selfNote : String) :
    ∀ (cs : List (List String)) (k : Nat) (st : RefLoopState),
      refsLoop c1 rf selfNote cs k st = refsLoop c2 rf selfNote cs k st := by
  intro cs
  induction cs with
  | nil => intro k st; rfl
  | cons slice rest ih =>
    intro k st
    simp only [refsLoop]
    by_cases he : (extractWids slice).isEmpty
    · simp [he, ih]
    · simp only [he, if_false, ite_false]
      rw [processChunk_congr c1 c2 h]
      cases processChunk c2 selfNote
          (fetchWithRetry "OpenAlex references" (rf k)).1 st with
      | error row => rfl
      | ok st' => exact ih (k + 1) st'

theorem finishRow_congr (c1 c2 : RwCache) (b : Bool) (note : String)
    (st : RefLoopState) :
    (finishRow c1 b note st).statusLabel = (finishRow c2 b note st).statusLabel ∧
    (finishRow c1 b note st).referencesEvaluated =
      (finishRow c2 b note st).referencesEvaluated ∧
    (finishRow c1 b note st).retractedDoisText =
      (finishRow c2 b note st).retractedDoisText := by
  unfold finishRow
  by_cases he : st.evaluated = 0 <;> simp [he]

theorem check_congr (c1 c2 : RwCache)
    (h : ∀ d, rwHit c1 d = rwHit c2 d) (doi : String)
    (wf : Nat → FetchAttempt WorkBody)
    (rf : Nat → Nat → FetchAttempt RefsBody) :
    (checkReferencesForDoi doi c1 wf rf).statusLabel =
      (checkReferencesForDoi doi c2 wf rf).statusLabel ∧
    (checkReferencesForDoi doi c1 wf rf).referencesEvaluated =
      (checkReferencesForDoi doi c2 wf rf).referencesEvaluated ∧
    (checkReferencesForDoi doi c1 wf rf).retractedDoisText =
      (checkReferencesForDoi doi c2 wf rf).retractedDoisText := by
  have hhit : selfHitRW c1 doi = selfHitRW c2 doi := by
    unfold selfHitRW
    rw [h]
  unfold checkReferencesForDoi
  rw [hhit]
  cases hs : selfHitRW c2 doi
  · simp only [Bool.false_eq_true, if_false, ite_false]
    cases hw : (fetchWithRetry "OpenAlex work" wf).1 with
    | error e => exact ⟨rfl, rfl, rfl⟩
    | ok cb =>
      rcases cb with ⟨code, body⟩
      by_cases h404 : code = 404
      · simp [h404]
      · by_cases h200 : code = 200
        · subst h200
          simp only [h404, if_false, ite_false, if_neg]
          cases body with
          | invalid => simp
          | nonObject => simp
          | obj w =>
            simp only
            by_cases hre : w.referenced_works.isEmpty
            · simp [hre]
            · simp only [hre, if_false, ite_false]
              rw [refsLoop_congr c1 c2 h]
              cases refsLoop c2 rf (selfNoteOf w.is_retracted)
                  (chunks40 w.referenced_works) 0 ⟨0, 0, 0, 0, []⟩ with
              | error early => exact ⟨rfl, rfl, rfl⟩
              | ok st => exact finishRow_congr c1 c2 w.is_retracted _ st
        · simp [h404, h200]
  · simp

end Gs

/-- C7: loading the bulk retraction index is fail-soft. In app.js a
thrown fetch or a non-ok HTTP status yields the empty set; in code.gs a
thrown fetch or a non-200 status yields a cache with no map; and a
mapless cache never changes the classification outcome of any DOI: its
status label, evaluated count and retracted-DOI list are those of an
empty index, for every fetch environment (the job never aborts). -/
theorem index_load_failure_fail_soft :
    (∀ e, appLoadRwIndex (Gs.FetchAttempt.throwErr e) = []) ∧
    (∀ code text, ¬ (200 ≤ code ∧ code ≤ 299) →
      appLoadRwIndex (Gs.FetchAttempt.resp code text) = []) ∧
    (∀ e, (Gs.getRetractionWatchCache (Gs.FetchAttempt.throwErr e)).map = none) ∧
    (∀ code text, code ≠ 200 →
      (Gs.getRetractionWatchCache (Gs.FetchAttempt.resp code text)).map = none) ∧
    (∀ c : Gs.RwCache, c.map = none →
      ∀ doi wf rf,
        (Gs.checkReferencesForDoi doi c wf rf).statusLabel =
          (Gs.checkReferencesForDoi doi ⟨none, some []⟩ wf rf).statusLabel ∧
        (Gs.checkReferencesForDoi doi c wf rf).referencesEvaluated =
          (Gs.checkReferencesForDoi doi ⟨none, some []⟩ wf rf).referencesEvaluated ∧
        (Gs.checkReferencesForDoi doi c wf rf).retractedDoisText =
          (Gs.checkReferencesForDoi doi ⟨none, some []⟩ wf rf).retractedDoisText) := by
  refine ⟨fun e => rfl, fun code text hok => ?_, fun e => rfl,
    fun code text hc => ?_, fun c hmap doi wf rf => ?_⟩
  · simp [appLoadRwIndex, hok]
  · simp [Gs.getRetractionWatchCache, hc]
  · refine Gs.check_congr c ⟨none, some []⟩ (fun d => ?_) doi wf rf
    unfold Gs.rwHit
    rw [hmap]
    simp

/-- C7 witness: the fail-soft behaviour at concrete failures: a thrown
app.js fetch gives the empty set, a 500 in code.gs gives a mapless
cache, and a mapless cache classifies like an empty index. -/
theorem index_load_failure_fail_soft_witness :
    appLoadRwIndex (Gs.FetchAttempt.throwErr "down") = [] ∧
    appLoadRwIndex (Gs.FetchAttempt.resp 500 "oops") = [] ∧
    (Gs.getRetractionWatchCache (Gs.FetchAttempt.resp 500 "oops")).map = none ∧
    (Gs.checkReferencesForDoi "10.1/x" ⟨some "RW index HTTP 500", none⟩
        (fun _ => Gs.FetchAttempt.throwErr "net")
        (fun _ _ => Gs.FetchAttempt.throwErr "net")).statusLabel =
      (Gs.checkReferencesForDoi "10.1/x" ⟨none, some []⟩
        (fun _ => Gs.FetchAttempt.throwErr "net")
        (fun _ _ => Gs.FetchAttempt.throwErr "net")).statusLabel :=
  ⟨index_load_failure_fail_soft.1 "down",
   index_load_failure_fail_soft.2.1 500 "oops" (by omega),
   index_load_failure_fail_soft.2.2.2.1 500 "oops" (by omega),
   (index_load_failure_fail_soft.2.2.2.2 ⟨some "RW index HTTP 500", none⟩ rfl
      "10.1/x" (fun _ => Gs.FetchAttempt.throwErr "net")
      (fun _ _ => Gs.FetchAttempt.throwErr "net")).1⟩

/-! ## C5: the batch runner never reprocesses committed rows

Embeds `processBatch_` and `processAllRemaining` from code.gs. The
wall-clock check `Date.now() - startTime > MAX_RUNTIME_MS - 20000` is an
oracle `tEx` over the row position; per-DOI classification is an
abstract `check` function (its concrete instance is
`checkReferencesForDoi`); the outer loop's time budget is the oracle
`outerStop` plus a fuel bound. -/

namespace Gs

/-- One sheet row (columns K-O). -/
structure Row where
  doi : String
  status : String
  reason : String
  refs : Option Nat
  retracted : String
deriving DecidableEq

/-- The write-back `sh.getRange(rowIndex, COL_STATUS, 1, 4).setValues`. -/
def commitRow (r : Row) (res : RowResult) : Row :=
  { r with
    status := res.statusLabel,
    reason := res.reason,
    refs := res.referencesEvaluated,
    retracted := res.retractedDoisText }

/-- The selection test: skipped iff the DOI is falsy/blank or the status
cell is truthy (`!doi || String(doi).trim() === "" || status`). -/
def isPending (r : Row) : Bool :=
  jsTrim r.doi != "" && r.status == ""

/-- Loop body of `processBatch_`: `i` is the row position (feeding the
time oracle), `p` the processed counter; returns the updated rows and
the final counter. -/
def processRows (check : String → RowResult) (tEx : Nat → Bool)
    (limit : Nat) : List Row → Nat → Nat → List Row × Nat
  | [], _, p => ([], p)
  | r :: rest, i, p =>
    if jsTrim r.doi = "" ∨ r.status ≠ "" then
      let pr := processRows check tEx limit rest (i + 1) p
      (r :: pr.1, pr.2)
    else if tEx i then (r :: rest, p)
    else
      let r' := commitRow r (check (jsTrim r.doi))
      if limit ≤ p + 1 then (r' :: rest, p + 1)
      else
        let pr := processRows check tEx limit rest (i + 1) (p + 1)
        (r' :: pr.1, pr.2)

/-- `processBatch_` from code.gs (returns the new sheet and the
processed count; `didWork` is `0 < count`). -/
def processBatch (check : String → RowResult) (tEx : Nat → Bool)
    (limit : Nat) (rows : List Row) : List Row × Nat :=
  processRows check tEx limit rows 0 0

/-- `processAllRemaining` from code.gs: repeat the batch of
`BATCH_SIZE = 5` until a batch processes zero rows or the outer
time-budget oracle stops it; `fuel` bounds the iteration count. -/
def processAllRemainingLoop (check : String → RowResult)
    (tEx : Nat → Nat → Bool) (outerStop : Nat → Bool) :
    Nat → List Row → List Row
  | 0, rows => rows
  | fuel + 1, rows =>
    let pr := processBatch check (tEx fuel) 5 rows
    if pr.2 = 0 then pr.1
    else if outerStop fuel then pr.1
    else processAllRemainingLoop check tEx outerStop fuel pr.1

theorem processRows_preserves (check : String → RowResult)
    (tEx : Nat → Bool) (limit : Nat) :
    ∀ (rows : List Row) (i p j : Nat) (r : Row),
      rows.get? j = some r → r.status ≠ "" →
      (processRows check tEx limit rows i p).1.get? j = some r := by
  intro rows
  induction rows with
  | nil => intro i p j r hj _; cases hj
  | cons a rest ih =>
    intro i p j r hj hs
    simp only [processRows]
    by_cases hskip : jsTrim a.doi = "" ∨ a.status ≠ ""
    · simp only [hskip, if_true, ite_true]
      cases j with
      | zero => exact hj
      | succ j => exact ih (i + 1) p j r hj hs
    · simp only [hskip, if_false, ite_false]
      by_cases htx : tEx i
      · simp only [htx, if_true, ite_true]
        exact hj
      · simp only [htx, if_false, ite_false]
        cases j with
        | zero =>
          exfalso
          have hra : a = r := Option.some.inj hj
          exact hskip (Or.inr (hra ▸ hs))
        | succ j =>
          by_cases hl : limit ≤ p + 1
          · simp only [hl, if_true, ite_true]
            exact hj
          · simp only [hl, if_false, ite_false]
            exact ih (i + 1) (p + 1) j r hj hs

theorem processRows_changed_pending (check : String → RowResult)
    (tEx : Nat → Bool) (limit : Nat) :
    ∀ (rows : List Row) (i p j : Nat) (r r' : Row),
      rows.get? j = some r →
      (processRows check tEx limit rows i p).1.get? j = some r' →
      r' ≠ r → r.status = "" ∧ jsTrim r.doi ≠ "" := by
  intro rows
  induction rows with
  | nil => intro i p j r r' hj _ _; cases hj
  | cons a rest ih =>
    intro i p j r r' hj hj' hne
    simp only [processRows] at hj'
    by_cases hskip : jsTrim a.doi = "" ∨ a.status ≠ ""
    · simp only [hskip, if_true, ite_true] at hj'
      cases j with
      | zero =>
        exact absurd ((Option.some.inj hj').symm.trans (Option.some.inj hj)) hne
      | succ j => exact ih (i + 1) p j r r' hj hj' hne
    · simp only [hskip, if_false, ite_false] at hj'
      by_cases htx : tEx i
      · simp only [htx, if_true, ite_true] at hj'
        exact absurd (Option.some.inj (hj'.symm.trans hj)) hne
      · simp only [htx, if_false, ite_false] at hj'
        push_neg at hskip
        cases j with
        | zero =>
          have hra : a = r := Option.some.inj hj
          exact ⟨hra ▸ hskip.2, hra ▸ hskip.1⟩
        | succ j =>
          by_cases hl : limit ≤ p + 1
          · simp only [hl, if_true, ite_true] at hj'
            exact absurd (Option.some.inj (hj'.symm.trans hj)) hne
          · simp only [hl, if_false, ite_false] at hj'
            exact ih (i + 1) (p + 1) j r r' hj hj' hne

theorem processAllRemainingLoop_preserves (check : String → RowResult)
    (tEx : Nat → Nat → Bool) (outerStop : Nat → Bool) :
    ∀ (fuel : Nat) (rows : List Row) (j : Nat) (r : Row),
      rows.get? j = some r → r.status ≠ "" →
      (processAllRemainingLoop check tEx outerStop fuel rows).get? j = some r := by
  intro fuel
  induction fuel with
  | zero => intro rows j r hj _; exact hj
  | succ fuel ih =>
    intro rows j r hj hs
    have hstep : (processBatch check (tEx fuel) 5 rows).1.get? j = some r :=
      processRows_preserves check (tEx fuel) 5 rows 0 0 j r hj hs
    simp only [processAllRemainingLoop]
    by_cases h0 : (processBatch check (tEx fuel) 5 rows).2 = 0
    · simp only [h0, if_true, ite_true]
      exact hstep
    · simp only [h0, if_false, ite_false]
      by_cases ho : outerStop fuel
      · simp only [ho, if_true, ite_true]
        exact hstep
      · simp only [ho, if_false, ite_false]
        exact ih _ j r hstep hs

/-- Count of pending rows, preserved as the invariant behind the
processed-rows count. -/
theorem processRows_count (check : String → RowResult) (limit : Nat) :
    ∀ (rows : List Row) (i p : Nat), p < limit →
      (processRows check (fun _ => false) limit rows i p).2 =
        min limit (p + rows.countP isPending) := by
  intro rows
  induction rows with
  | nil =>
    intro i p hp
    simp only [processRows, List.countP_nil]
    omega
  | cons a rest ih =>
    intro i p hp
    simp only [processRows]
    by_cases hskip : jsTrim a.doi = "" ∨ a.status ≠ ""
    · simp only [hskip, if_true, ite_true]
      rw [ih (i + 1) p hp]
      have hnp : isPending a = false := by
        unfold isPending
        rcases hskip with h | h
        · simp [h]
        · simp [h]
      rw [List.countP_cons, hnp]
      simp
    · simp only [hskip, if_false, ite_false, Bool.false_eq_true]
      push_neg at hskip
      have hpa : isPending a = true := by
        unfold isPending
        simp [hskip.1, hskip.2]
      rw [List.countP_cons, hpa]
      simp only [eq_self_iff_true, if_true]
      by_cases hl : limit ≤ p + 1
      · simp only [hl, if_true, ite_true]
        omega
      · simp only [hl, if_false, ite_false]
        rw [ih (i + 1) (p + 1) (by omega)]
        omega

/-- C5: committed rows are never reprocessed. A row whose status cell is
non-empty is returned unchanged by `processBatch_` (first conjunct) and
by every supervisory `processAllRemaining` loop (third conjunct), for
every classifier, time oracle, limit and row set; and any row a batch
invocation changes was Pending: empty status and non-blank DOI (second
conjunct). -/
theorem committed_rows_never_reprocessed :
    (∀ (check : String → RowResult) (tEx : Nat → Bool) (limit : Nat)
      (rows : List Row) (j : Nat) (r : Row),
      rows.get? j = some r → r.status ≠ "" →
      (processBatch check tEx limit rows).1.get? j = some r) ∧
    (∀ (check : String → RowResult) (tEx : Nat → Bool) (limit : Nat)
      (rows : List Row) (j : Nat) (r r' : Row),
      rows.get? j = some r →
      (processBatch check tEx limit rows).1.get? j = some r' →
      r' ≠ r → r.status = "" ∧ jsTrim r.doi ≠ "") ∧
    (∀ (check : String → RowResult) (tEx : Nat → Nat → Bool)
      (outerStop : Nat → Bool) (fuel : Nat) (rows : List Row) (j : Nat)
      (r : Row),
      rows.get? j = some r → r.status ≠ "" →
      (processAllRemainingLoop check tEx outerStop fuel rows).get? j = some r) :=
  ⟨fun check tEx limit rows j r hj hs =>
      processRows_preserves check tEx limit rows 0 0 j r hj hs,
   fun check tEx limit rows j r r' hj hj' hne =>
      processRows_changed_pending check tEx limit rows 0 0 j r r' hj hj' hne,
   fun check tEx outerStop fuel rows j r hj hs =>
      processAllRemainingLoop_preserves check tEx outerStop fuel rows j r hj hs⟩

/-- C5 witness: a committed row (non-empty status) survives a batch and
a supervisory loop unchanged at a concrete sheet. -/
theorem committed_rows_never_reprocessed_witness :
    (processBatch (fun _ => ⟨"ERROR", "x", none, ""⟩) (fun _ => false) 5
        [⟨"10.1/a", "RETRACTED", "r", some 0, ""⟩, ⟨"10.2/b", "", "", none, ""⟩]).1.get? 0 =
      some ⟨"10.1/a", "RETRACTED", "r", some 0, ""⟩ ∧
    (processAllRemainingLoop (fun _ => ⟨"ERROR", "x", none, ""⟩)
        (fun _ _ => false) (fun _ => false) 3
        [⟨"10.1/a", "RETRACTED", "r", some 0, ""⟩, ⟨"10.2/b", "", "", none, ""⟩]).get? 0 =
      some ⟨"10.1/a", "RETRACTED", "r", some 0, ""⟩ :=
  ⟨committed_rows_never_reprocessed.1 _ _ 5 _ 0 _ rfl (by decide),
   committed_rows_never_reprocessed.2.2 _ _ _ 3 _ 0 _ rfl (by decide)⟩

end Gs

/-! ## C6: rate-limit retry with doubling backoff, error-not-abort -/

namespace Gs

theorem fetchWithRetry_rate_limited {β : Type} (label : String)
    (f : Nat → FetchAttempt β) (body : β)
    (hf : ∀ n, f n = FetchAttempt.resp 429 body) :
    fetchWithRetry label f =
      (Except.error (label ++ " HTTP 429 (rate limited)"), [3000, 3000 * 2]) := by
  simp [fetchWithRetry, fetchRetryGo, hf]

theorem fetchWithRetry_network_error {β : Type} (label : String)
    (f : Nat → FetchAttempt β) (e : String)
    (hf : ∀ n, f n = FetchAttempt.throwErr e) :
    fetchWithRetry label f =
      (Except.error (label ++ " network error: " ++ e), [3000, 3000 * 2]) := by
  simp [fetchWithRetry, fetchRetryGo, hf]

/-- C6: a provider call answered 429 on every attempt is retried exactly
`maxRetries = 2` additional times, sleeping the doubling delays 3000 and
3000·2 ms, and then yields an error value instead of throwing; the same
holds for a network error thrown on every attempt; when the focal-work
fetch is rate-limited this way, the row is classified `ERROR` with a
reason containing "429"; and a batch invocation commits every pending
row up to its limit regardless of the per-row results, so per-row
failures never abort the batch. -/
theorem rate_limited_rows_error_not_abort :
    (∀ {β : Type} (label : String) (f : Nat → FetchAttempt β) (body : β),
      (∀ n, f n = FetchAttempt.resp 429 body) →
      fetchWithRetry label f =
        (Except.error (label ++ " HTTP 429 (rate limited)"), [3000, 3000 * 2])) ∧
    (∀ {β : Type} (label : String) (f : Nat → FetchAttempt β) (e : String),
      (∀ n, f n = FetchAttempt.throwErr e) →
      fetchWithRetry label f =
        (Except.error (label ++ " network error: " ++ e), [3000, 3000 * 2])) ∧
    (∀ (doi : String) (c : RwCache) (wb : WorkBody)
      (wf : Nat → FetchAttempt WorkBody)
      (rf : Nat → Nat → FetchAttempt RefsBody),
      (∀ n, wf n = FetchAttempt.resp 429 wb) →
      selfHitRW c doi = false →
      (checkReferencesForDoi doi c wf rf).statusLabel = "ERROR" ∧
      "429".data <:+: (checkReferencesForDoi doi c wf rf).reason.data) ∧
    (∀ (check : String → RowResult) (limit : Nat) (rows : List Row),
      0 < limit →
      (processBatch check (fun _ => false) limit rows).2 =
        min limit (rows.countP isPending)) := by
  refine ⟨fun label f body hf => fetchWithRetry_rate_limited label f body hf,
    fun label f e hf => fetchWithRetry_network_error label f e hf,
    fun doi c wb wf rf hwf hmiss => ?_,
    fun check limit rows hl => ?_⟩
  · have h1 : (fetchWithRetry "OpenAlex work" wf).1 =
        Except.error ("OpenAlex work" ++ " HTTP 429 (rate limited)") := by
      rw [fetchWithRetry_rate_limited "OpenAlex work" wf wb hwf]
    unfold checkReferencesForDoi
    rw [hmiss]
    simp only [Bool.false_eq_true, if_false, ite_false, h1]
    constructor
    · trivial
    · decide
  · have := processRows_count check limit rows 0 0 hl
    simpa [processBatch] using this

/-- C6 witness: the retry/backoff and error classification at concrete
inputs: an always-429 oracle, an always-throwing oracle, a focal-work
fetch that is rate-limited, and a two-row batch in which the first row
errors but the second is still processed. -/
theorem rate_limited_rows_error_not_abort_witness :
    fetchWithRetry "OpenAlex work" (fun _ => FetchAttempt.resp 429 ()) =
      (Except.error ("OpenAlex work" ++ " HTTP 429 (rate limited)"),
        [3000, 3000 * 2]) ∧
    fetchWithRetry "OpenAlex refs"
        (fun _ => (FetchAttempt.throwErr "reset" : FetchAttempt Unit)) =
      (Except.error ("OpenAlex refs" ++ " network error: " ++ "reset"),
        [3000, 3000 * 2]) ∧
    (checkReferencesForDoi "10.1/x" ⟨none, some []⟩
        (fun _ => FetchAttempt.resp 429 WorkBody.invalid)
        (fun _ _ => FetchAttempt.throwErr "net")).statusLabel = "ERROR" ∧
    (processBatch
        (fun _ => ⟨"ERROR", "OpenAlex work HTTP 429 (rate limited)", none, ""⟩)
        (fun _ => false) 5
        [⟨"10.1/a", "", "", none, ""⟩, ⟨"10.2/b", "", "", none, ""⟩]).2 =
      min 5 ([⟨"10.1/a", "", "", none, ""⟩,
        (⟨"10.2/b", "", "", none, ""⟩ : Row)].countP isPending) :=
  ⟨rate_limited_rows_error_not_abort.1 "OpenAlex work" _ () (fun _ => rfl),
   rate_limited_rows_error_not_abort.2.1 "OpenAlex refs" _ "reset" (fun _ => rfl),
   (rate_limited_rows_error_not_abort.2.2.1 "10.1/x" ⟨none, some []⟩
      WorkBody.invalid _ _ (fun _ => rfl) (by decide)).1,
   rate_limited_rows_error_not_abort.2.2.2 _ 5 _ (by decide)⟩

end Gs

/-! ## C10: the committed retracted-DOI list and deduplication -/

namespace Gs

theorem dedupGo_nodup :
    ∀ (l : List String) (seen : List String),
      (dedupGo seen l).Nodup ∧ ∀ x ∈ dedupGo seen l, x ∉ seen := by
  intro l
  induction l with
  | nil => intro seen; exact ⟨List.nodup_nil, by simp [dedupGo]⟩
  | cons d rest ih =>
    intro seen
    simp only [dedupGo]
    by_cases hd : d ∈ seen
    · simp only [hd, if_true, ite_true]
      exact ⟨(ih seen).1, fun x hx => (ih seen).2 x hx⟩
    · simp only [hd, if_false, ite_false]
      constructor
      · refine List.nodup_cons.mpr ⟨?_, (ih (d :: seen)).1⟩
        intro hmem
        exact ((ih (d :: seen)).2 d hmem) (List.mem_cons_self d seen)
      · intro x hx
        rcases List.mem_cons.mp hx with rfl | hx
        · exact hd
        · intro hxs
          exact (ih (d :: seen)).2 x hx (List.mem_cons_of_mem d hxs)

theorem dedup_nodup (l : List String) : (dedup l).Nodup :=
  (dedupGo_nodup l []).1

theorem finishRow_text (c : RwCache) (b : Bool) (note : String)
    (st : RefLoopState) :
    (finishRow c b note st).retractedDoisText =
      if st.retractedDois.length > 0 then
        String.intercalate ", " (dedup st.retractedDois)
      else "" := by
  unfold finishRow
  by_cases he : st.evaluated = 0 <;> simp [he]

/-- C10 counterexample: a provider batch that returns the same retracted
DOI twice followed by a failing batch commits a row whose
`retractedDoisText` contains the normalized DOI twice: the mid-loop
error returns join the raw, un-deduplicated list. -/
theorem retracted_list_duplicated_on_batch_error :
    (checkReferencesForDoi "10.9/self" ⟨none, some []⟩
        (fun _ => FetchAttempt.resp 200
          (WorkBody.obj ⟨false, List.replicate 41 "W"⟩))
        (fun k _ => if k = 0 then
            FetchAttempt.resp 200 (RefsBody.results
              [some ⟨"10.1/dup", true⟩, some ⟨"10.1/dup", true⟩])
          else FetchAttempt.resp 500 RefsBody.noResults)).retractedDoisText =
      "10.1/dup, 10.1/dup" := by
  decide

/-- C10 (amended): the deduplication pass makes the committed
retracted-DOI list duplicate-free on every path that completes the
reference loop; a row committed by a mid-loop provider-error return
carries the raw, possibly duplicated list instead. Formally: either the
result is an early error return of the reference loop, or the committed
`retractedDoisText` is the comma-join of a duplicate-free list. -/
theorem retracted_list_duplicate_free_unless_batch_error :
    (∀ l : List String, (dedup l).Nodup) ∧
    (∀ (doi : String) (c : RwCache) (wf : Nat → FetchAttempt WorkBody)
      (rf : Nat → Nat → FetchAttempt RefsBody),
      (∃ (w : WorkJson) (early : RowResult),
        (fetchWithRetry "OpenAlex work" wf).1 =
          Except.ok (200, WorkBody.obj w) ∧
        refsLoop c rf (selfNoteOf w.is_retracted) (chunks40 w.referenced_works)
          0 ⟨0, 0, 0, 0, []⟩ = Except.error early ∧
        checkReferencesForDoi doi c wf rf = early) ∨
      (∃ l : List String, l.Nodup ∧
        (checkReferencesForDoi doi c wf rf).retractedDoisText =
          String.intercalate ", " l)) := by
  refine ⟨dedup_nodup, fun doi c wf rf => ?_⟩
  unfold checkReferencesForDoi
  cases hs : selfHitRW c doi
  · simp only [Bool.false_eq_true, if_false, ite_false]
    cases hw : (fetchWithRetry "OpenAlex work" wf).1 with
    | error e => exact Or.inr ⟨[], List.nodup_nil, rfl⟩
    | ok cb =>
      rcases cb with ⟨code, body⟩
      by_cases h404 : code = 404
      · simp only [h404, if_true, ite_true]
        exact Or.inr ⟨[], List.nodup_nil, rfl⟩
      · by_cases h200 : code = 200
        · subst h200
          simp only [h404, if_false, ite_false]
          cases body with
          | invalid => exact Or.inr ⟨[], List.nodup_nil, by simp <;> rfl⟩
          | nonObject => exact Or.inr ⟨[], List.nodup_nil, by simp <;> rfl⟩
          | obj w =>
            simp only
            by_cases hre : w.referenced_works.isEmpty
            · simp only [hre, if_true, ite_true]
              exact Or.inr ⟨[], List.nodup_nil, by simp <;> rfl⟩
            · simp only [hre, if_false, ite_false]
              cases hloop : refsLoop c rf (selfNoteOf w.is_retracted)
                  (chunks40 w.referenced_works) 0 ⟨0, 0, 0, 0, []⟩ with
              | error early =>
                exact Or.inl ⟨w, early, rfl, hloop, rfl⟩
              | ok st =>
                right
                by_cases hlen : st.retractedDois.length > 0
                · exact ⟨dedup st.retractedDois, dedup_nodup _,
                    (finishRow_text c w.is_retracted
                      (selfNoteOf w.is_retracted) st).trans (if_pos hlen)⟩
                · exact ⟨[], List.nodup_nil,
                    (finishRow_text c w.is_retracted
                      (selfNoteOf w.is_retracted) st).trans (if_neg hlen)⟩
        · simp only [h404, h200, if_false, ite_false]
          exact Or.inr ⟨[], List.nodup_nil, by simp [h404, h200] <;> rfl⟩
  · simp only [if_true, ite_true]
    exact Or.inr ⟨[], List.nodup_nil, rfl⟩

end Gs
